import Mathlib

/-!
Verification of the Local-Captcha repository.

The development shallowly embeds the two source files:

* `src/captcha.py` — the core image-synthesis pipeline `captcha(...)`
  (glyph rendering, mesh warp, noise and grid generation, alpha blending,
  overlay, finisher).
* `src/web_api.py` — the transport wrapper `generate_captcha`.

Modelling conventions.

* Python floats are modelled by exact rationals; the float literals of the
  source become the rationals 0.6 = 3/5, 0.68 = 17/25, 0.85 = 17/20,
  1.05 = 21/20, 0.06 = 3/50, 1.06 = 53/50, 0.0006 = 3/5000, 0.3 = 3/10.
* The Python builtin `int(...)` (truncation toward zero) is `pyInt`.
* The module-level random generator is modelled by an explicit stream
  `s : RS` of draw results in [0, 1); `random.uniform(a, b)` at stream
  position i yields `uniform a b (s i)` and `random.randint(-1, 3)`
  yields `randint5 (s i)`.  Each stage threads the next unused stream
  position exactly as the source consumes draws.
* External imaging primitives of the PIL library (glyph rasterisation and
  bicubic rotation of a character canvas, the MESH transform resampler,
  `rotate`, `GaussianBlur`, `Image.effect_noise`, and the rasterised
  overlay line/dot content) are modelled by an environment `Env` of
  oracles.  Their pixel content is outside the repository; their size
  behaviour and the arithmetic the repository performs on their results
  are modelled exactly.  In particular `Image.effect_noise` draws from
  an internal generator of the PIL C library (Effects.c uses the C
  `rand()` state), not from the Python `random` module, which is why its
  output is an environment input and not a function of the stream.
* Images are total pixel functions with a width and a height; 8-bit
  storage is modelled by clamping into [0, 255] at every point where
  PIL stores into an L-mode or RGBA-mode band.
-/

/-- The result stream of the module-level random generator: one rational
in [0, 1) per draw. -/
abbrev RS : Type := ℕ → ℚ

/-- Python `int(q)`: truncation toward zero. -/
def pyInt (q : ℚ) : ℤ := if q < 0 then -(Rat.floor (-q)) else Rat.floor q

/-- `pyInt` followed by clamping negatives to 0 (used where the source
stores a nonnegative quantity into a byte or a Nat-like slot). -/
def pyIntN (q : ℚ) : ℕ := (pyInt q).toNat

/-- The clamp helper of `captcha` (src/captcha.py line 53):
`max(0.0, min(1.0, float(v)))`. -/
def clamp01 (v : ℚ) : ℚ := max 0 (min 1 v)

/-- Result of `random.uniform(a, b)` when the generator produces the
unit-interval value `u`. -/
def uniform (a b u : ℚ) : ℚ := a + (b - a) * u

/-- Result of `random.randint(-1, 3)` when the generator produces the
unit-interval value `u`. -/
def randint5 (u : ℚ) : ℤ := pyInt (u * 5) - 1

/-- The clamp written in the specification text: values below 0 go to 0,
values above 1 go to 1, values inside [0,1] are unchanged. -/
def clampSpec (v : ℚ) : ℚ := if v < 0 then 0 else if 1 < v then 1 else v

/-- An RGBA pixel, each channel an 8-bit value. -/
structure Pix where
  r : ℕ
  g : ℕ
  b : ℕ
  a : ℕ

/-- A single-band (grayscale, L-mode) image as a total pixel function. -/
structure GrayImage where
  w : ℕ
  h : ℕ
  pix : ℕ → ℕ → ℕ

/-- An RGBA image as a total pixel function. -/
structure Img where
  w : ℕ
  h : ℕ
  pix : ℕ → ℕ → Pix

/-- PIL `Image.point` on an L-mode image: the lookup value is clamped
into the byte range (negatives to 0, above 255 to 255). -/
def pointL (f : ℕ → ℤ) (im : GrayImage) : GrayImage :=
  ⟨im.w, im.h, fun x y => min 255 (f (im.pix x y)).toNat⟩

/-- PIL `ImageChops.add`: per-pixel sum clamped at 255. -/
def chopsAdd (im1 im2 : GrayImage) : GrayImage :=
  ⟨im1.w, im1.h, fun x y => min 255 (im1.pix x y + im2.pix x y)⟩

/-- PIL `ImageChops.subtract`: per-pixel difference clamped at 0
(natural subtraction). -/
def chopsSubtract (im1 im2 : GrayImage) : GrayImage :=
  ⟨im1.w, im1.h, fun x y => im1.pix x y - im2.pix x y⟩

/-- PIL `ImageChops.lighter`: per-pixel maximum. -/
def chopsLighter (im1 im2 : GrayImage) : GrayImage :=
  ⟨im1.w, im1.h, fun x y => max (im1.pix x y) (im2.pix x y)⟩

/-- PIL `ImageDraw.rectangle` with integer corners (both corners
inclusive) on an L-mode image. -/
def fillRect (im : GrayImage) (x0 y0 x1 y1 : ℤ) (v : ℕ) : GrayImage :=
  ⟨im.w, im.h, fun x y =>
    if x0 ≤ (x : ℤ) ∧ (x : ℤ) ≤ x1 ∧ y0 ≤ (y : ℤ) ∧ (y : ℤ) ≤ y1
    then min 255 v else im.pix x y⟩

/-- A constant L-mode image. -/
def constGray (w h v : ℕ) : GrayImage := ⟨w, h, fun _ _ => v⟩

/-- Alpha channel of standard over-compositing (`Image.alpha_composite`),
foreground over background: the real value is
fg + bg·(255-fg)/255, taken here with integer floor division. -/
def compositeAlpha (fg bg : ℕ) : ℕ := fg + bg * (255 - fg) / 255

/-- Colour channel of standard over-compositing, un-premultiplied and
floor-divided; a model of the external blend (the claims never inspect
colour values, only the alpha channel and the buffer size). -/
def blendC (fc fa bc ba outa : ℕ) : ℕ :=
  if outa = 0 then 0
  else min 255 ((fc * fa * 255 + bc * ba * (255 - fa)) / (255 * outa))

/-- Per-pixel over-compositing of RGBA pixels (foreground over
background). -/
def compositePix (fg bg : Pix) : Pix :=
  ⟨blendC fg.r fg.a bg.r bg.a (compositeAlpha fg.a bg.a),
   blendC fg.g fg.a bg.g bg.a (compositeAlpha fg.a bg.a),
   blendC fg.b fg.a bg.b bg.a (compositeAlpha fg.a bg.a),
   compositeAlpha fg.a bg.a⟩

/-- PIL `Image.alpha_composite(im1, im2)`: `im2` composited over `im1`;
the result has the size of `im1`. -/
def alphaCompositeImg (im1 im2 : Img) : Img :=
  ⟨im1.w, im1.h, fun x y => compositePix (im2.pix x y) (im1.pix x y)⟩

/-- PIL `Image.merge("RGBA", (r,g,b,alpha))` where the colour bands come
from `src` and the alpha band from `alpha`. -/
def mergeRGBA (src : Img) (alpha : GrayImage) : Img :=
  ⟨src.w, src.h, fun x y =>
    ⟨(src.pix x y).r, (src.pix x y).g, (src.pix x y).b, alpha.pix x y⟩⟩

/-- A constant RGBA image (`Image.new("RGBA", (w,h), colour)`). -/
def newRGBA (w h : ℕ) (p : Pix) : Img := ⟨w, h, fun _ _ => p⟩

/-- Environment of external collaborators: the PIL imaging primitives
whose pixel content is produced outside the repository.  `rotWidth` and
`rotHeight` give the canvas size of character `k` after
`rotate(angle, expand=1)`; `glyphAlpha` its alpha content; `hasMesh`
models `hasattr(Image, "MESH")`; `meshFails` whether `transform` raises;
`warpPix`, `rotatePix`, `blurPix` the resampled content of `transform`,
`rotate` and `GaussianBlur`; `noiseFails` whether `Image.effect_noise`
raises; `noiseField amp x y` its output (drawn from the PIL-internal C
generator, not from the Python `random` module); `overlayAlpha` the
rasterised alpha content of the random overlay lines and dots. -/
structure Env where
  rotWidth : ℕ → ℚ → ℕ
  rotHeight : ℕ → ℚ → ℕ
  glyphAlpha : ℕ → ℚ → ℕ → ℕ → ℕ
  hasMesh : Bool
  meshFails : Bool
  warpPix : ℕ → ℕ → Pix
  rotatePix : ℚ → ℕ → ℕ → Pix
  blurPix : ℚ → ℕ → ℕ → Pix
  noiseFails : Bool
  noiseField : ℕ → ℕ → ℕ → ℕ
  overlayAlpha : ℕ → ℕ → ℕ

/-- The parameter set of `captcha` (src/captcha.py lines 35-47).
`font_path` only selects the external font resource and is otherwise
unused by the pipeline arithmetic. -/
structure Params where
  text : List Char
  width : Option ℕ
  height : ℕ
  font_path : Option String
  font_size : ℕ
  mesh_steps : ℕ × ℕ
  grid_spacing : ℕ
  distortion : ℚ
  noise : ℚ
  grid_strength : ℚ
  rotation : ℚ
  protect_text : Bool

/-- Clamped distortion (line 55). -/
def distortionR (p : Params) : ℚ := clamp01 p.distortion

/-- Clamped noise (line 56). -/
def noiseR (p : Params) : ℚ := clamp01 p.noise

/-- Clamped grid strength (line 57). -/
def gridStrengthR (p : Params) : ℚ := clamp01 p.grid_strength

/-- Clamped per-character rotation (line 58). -/
def rotationR (p : Params) : ℚ := clamp01 p.rotation

/-- Width resolution (lines 60-62): if absent,
`max(220, int(len(text) * font_size * 0.6) + 60)`. -/
def resolveWidth (p : Params) : ℕ :=
  match p.width with
  | some wgiven => wgiven
  | none => max 220 (pyIntN ((p.text.length : ℚ) * (p.font_size : ℚ) * (3/5)) + 60)

/-- One pasted character on the shared text layer: its character index,
the cursor position it was pasted at, and its sampled rotation angle. -/
structure Paste where
  k : ℕ
  x : ℤ
  angle : ℚ

/-- Cursor advance per pasted character (line 92): `int(font_size * 0.68)`. -/
def advance (fs : ℕ) : ℤ := pyInt ((fs : ℚ) * (17/25))

/-- The character loop of lines 78-92.  For each remaining character:
sample the rotation angle `uniform(-12·rotation, 12·rotation)` (one
draw), obtain the rotated canvas width from the environment, stop if the
cursor plus that width overruns `width - 20`, otherwise record the paste
and advance the cursor by `int(font_size*0.68) + randint(-1,3)` (a
second draw).  Returns the pastes and the next unused stream position. -/
def glyphPastes (env : Env) (rot : ℚ) (w fs : ℕ) (s : RS) :
    List Char → ℕ → ℤ → ℕ → List Paste × ℕ
  | [], _, _, i => ([], i)
  | _ :: rest, k, x, i =>
    let angle := uniform (-(12 * rot)) (12 * rot) (s i)
    if (w : ℤ) - 20 < x + (env.rotWidth k angle : ℤ) then ([], i + 1)
    else
      let res := glyphPastes env rot w fs s rest (k + 1)
        (x + advance fs + randint5 (s (i + 1))) (i + 2)
      (⟨k, x, angle⟩ :: res.1, res.2)

/-- PIL `paste` with the pasted RGBA image as its own mask: the alpha
band becomes `(src·m + dst·(255-m))/255` with `m` the source alpha. -/
def pasteStep (acc m : ℕ) : ℕ := (m * m + acc * (255 - m)) / 255

/-- Alpha content of the shared text layer after all pastes (lines 77
and 91): fold the paste blend over the recorded pastes, starting from
the fully transparent layer. -/
def layerAlphaPix (env : Env) (ps : List Paste) (x y : ℕ) : ℕ :=
  ps.foldl (fun acc pr =>
    if pr.x ≤ (x : ℤ) ∧ (x : ℤ) < pr.x + (env.rotWidth pr.k pr.angle : ℤ)
        ∧ y < env.rotHeight pr.k pr.angle
    then pasteStep acc (min 255 (env.glyphAlpha pr.k pr.angle ((x : ℤ) - pr.x).toNat y))
    else acc) 0

/-- Pastes recorded by the character loop of `captcha`, starting at
cursor 20 and stream position 0. -/
def pastesOf (p : Params) (env : Env) (s : RS) : List Paste :=
  (glyphPastes env (rotationR p) (resolveWidth p) p.font_size s p.text 0 20 0).1

/-- Next unused stream position after the character loop. -/
def idxAfterGlyphs (p : Params) (env : Env) (s : RS) : ℕ :=
  (glyphPastes env (rotationR p) (resolveWidth p) p.font_size s p.text 0 20 0).2

/-- The pre-warp text-ink mask (line 185):
`text_layer.split()[-1].convert("L")`. -/
def textMaskOf (p : Params) (env : Env) (s : RS) : GrayImage :=
  ⟨resolveWidth p, p.height, layerAlphaPix env (pastesOf p env s)⟩

/-- The opaque white background (line 65). -/
def baseOf (p : Params) : Img :=
  newRGBA (resolveWidth p) p.height ⟨255, 255, 255, 255⟩

/-- The shared text layer as an RGBA image: glyph ink `(10,10,10)` with
the pasted alpha content. -/
def textLayerOf (p : Params) (env : Env) (s : RS) : Img :=
  ⟨resolveWidth p, p.height, fun x y =>
    ⟨10, 10, 10, layerAlphaPix env (pastesOf p env s) x y⟩⟩

/-- Text over base (line 95). -/
def composedOf (p : Params) (env : Env) (s : RS) : Img :=
  alphaCompositeImg (baseOf p) (textLayerOf p env s)

/-- One mesh cell: source box and destination quadrilateral
(lines 124-130). -/
structure MeshCell where
  box : ℤ × ℤ × ℤ × ℤ
  quad : (ℤ × ℤ) × (ℤ × ℤ) × (ℤ × ℤ) × (ℤ × ℤ)

/-- Construction of one mesh cell from its 8 uniform draws
(lines 111-130). -/
def meshCell (cellW cellH mox moy : ℚ) (i j : ℕ)
    (u0 u1 u2 u3 u4 u5 u6 u7 : ℚ) : MeshCell :=
  let x0 := pyInt ((i : ℚ) * cellW)
  let y0 := pyInt ((j : ℚ) * cellH)
  let x1 := pyInt (((i : ℚ) + 1) * cellW)
  let y1 := pyInt (((j : ℚ) + 1) * cellH)
  let dx0 := pyInt (uniform (-mox) mox u0)
  let dy0 := pyInt (uniform (-moy) moy u1)
  let dx1 := pyInt (uniform (-mox) mox u2)
  let dy1 := pyInt (uniform (-moy) moy u3)
  let dx2 := pyInt (uniform (-mox) mox u4)
  let dy2 := pyInt (uniform (-moy) moy u5)
  let dx3 := pyInt (uniform (-mox) mox u6)
  let dy3 := pyInt (uniform (-moy) moy u7)
  ⟨(x0, y0, x1, y1),
   ((x0 + dx0, y0 + dy0), (x1 + dx1, y0 + dy1),
    (x1 + dx2, y1 + dy2), (x0 + dx3, y1 + dy3))⟩

/-- The cell index pairs in source iteration order (outer loop `i` over
`range(nx)`, inner loop `j` over `range(ny)`). -/
def cellPairs (nx ny : ℕ) : List (ℕ × ℕ) :=
  (List.range nx).foldr
    (fun i acc => ((List.range ny).map fun j => (i, j)) ++ acc) []

/-- The mesh-building loop (lines 109-131): consumes 8 stream draws per
cell, unconditionally — the list is built before the decision whether to
apply the transform. -/
def buildMeshCells (s : RS) (cellW cellH mox moy : ℚ) :
    List (ℕ × ℕ) → ℕ → List MeshCell × ℕ
  | [], i => ([], i)
  | ij :: rest, i =>
    let c := meshCell cellW cellH mox moy ij.1 ij.2
      (s i) (s (i + 1)) (s (i + 2)) (s (i + 3))
      (s (i + 4)) (s (i + 5)) (s (i + 6)) (s (i + 7))
    let res := buildMeshCells s cellW cellH mox moy rest (i + 8)
    (c :: res.1, res.2)

/-- `nx = max(1, int(nx))` (line 99). -/
def meshNx (p : Params) : ℕ := max 1 p.mesh_steps.1

/-- `ny = max(1, int(ny))` (line 99). -/
def meshNy (p : Params) : ℕ := max 1 p.mesh_steps.2

/-- `cell_w = w / nx` (line 100). -/
def cellWOf (p : Params) : ℚ := (resolveWidth p : ℚ) / (meshNx p : ℚ)

/-- `cell_h = h / ny` (line 101). -/
def cellHOf (p : Params) : ℚ := (p.height : ℚ) / (meshNy p : ℚ)

/-- `max_offset_x = max(1, cell_w * 0.25 * distortion)` (line 107). -/
def maxOffsetX (p : Params) : ℚ := max 1 (cellWOf p * (1/4) * distortionR p)

/-- `max_offset_y = max(1, cell_h * 0.30 * distortion)` (line 108). -/
def maxOffsetY (p : Params) : ℚ := max 1 (cellHOf p * (3/10) * distortionR p)

/-- The full mesh (always built, lines 109-131). -/
def meshOf (p : Params) (env : Env) (s : RS) : List MeshCell :=
  (buildMeshCells s (cellWOf p) (cellHOf p) (maxOffsetX p) (maxOffsetY p)
    (cellPairs (meshNx p) (meshNy p)) (idxAfterGlyphs p env s)).1

/-- Next unused stream position after building the mesh. -/
def idxAfterMesh (p : Params) (env : Env) (s : RS) : ℕ :=
  (buildMeshCells s (cellWOf p) (cellHOf p) (maxOffsetX p) (maxOffsetY p)
    (cellPairs (meshNx p) (meshNy p)) (idxAfterGlyphs p env s)).2

/-- PIL `Image.transform((w,h), Image.MESH, mesh, ...)`: the result size
is the given size; resampled content from the environment. -/
def meshTransformImg (env : Env) (size : ℕ × ℕ) (_mesh : List MeshCell)
    (_im : Img) : Img :=
  ⟨size.1, size.2, fun x y => env.warpPix x y⟩

/-- PIL `rotate(angle, expand=False)`: size preserved; resampled content
from the environment. -/
def rotateImg (env : Env) (angle : ℚ) (im : Img) : Img :=
  ⟨im.w, im.h, fun x y => env.rotatePix angle x y⟩

/-- PIL `GaussianBlur(radius)`: size preserved; content from the
environment. -/
def blurImg (env : Env) (radius : ℚ) (im : Img) : Img :=
  ⟨im.w, im.h, fun x y => env.blurPix radius x y⟩

/-- The warp branch (lines 134-142): mesh transform when
`distortion > 0.001` and the MESH primitive exists (falling back to a
`uniform(-2,2)` rotation when it raises), otherwise a
`uniform(-1,1) * rotation` rotation. -/
def warpedOf (p : Params) (env : Env) (s : RS) : Img :=
  if (1/1000 : ℚ) < distortionR p ∧ env.hasMesh = true then
    if env.meshFails = true then
      rotateImg env (uniform (-2) 2 (s (idxAfterMesh p env s))) (composedOf p env s)
    else
      meshTransformImg env (resolveWidth p, p.height) (meshOf p env s) (composedOf p env s)
  else
    rotateImg env (uniform (-1) 1 (s (idxAfterMesh p env s)) * rotationR p)
      (composedOf p env s)

/-- Stream draws consumed by the warp branch. -/
def idxAfterWarp (p : Params) (env : Env) (s : RS) : ℕ :=
  idxAfterMesh p env s +
    (if (1/1000 : ℚ) < distortionR p ∧ env.hasMesh = true then
      (if env.meshFails = true then 1 else 0)
    else 1)

/-- Blur radius `0.3 * (0.5 + distortion * 0.5)` (line 145). -/
def blurRadius (p : Params) : ℚ := (3/10) * (1/2 + distortionR p * (1/2))

/-- The blurred working image (line 145). -/
def blurredOf (p : Params) (env : Env) (s : RS) : Img :=
  blurImg env (blurRadius p) (warpedOf p env s)

/-- `noise_amp = int(8 + 120 * noise)` (line 149). -/
def noise_amp (n : ℚ) : ℕ := pyIntN (8 + 120 * n)

/-- The noise field (lines 150-158): `Image.effect_noise` output from
the environment (PIL-internal generator), or on failure the manual
per-pixel fallback `int(128 + (127*noise)*(random.random()-0.5))`,
which consumes one stream draw per pixel in row-major order. -/
def noiseImageOf (p : Params) (env : Env) (s : RS) : GrayImage :=
  if env.noiseFails = true then
    ⟨resolveWidth p, p.height, fun x y =>
      min 255 (pyIntN (128 + (127 * noiseR p) *
        (s (idxAfterWarp p env s + y * resolveWidth p + x) - 1/2)))⟩
  else
    ⟨resolveWidth p, p.height, fun x y =>
      min 255 (env.noiseField (noise_amp (noiseR p)) x y)⟩

/-- Stream draws consumed by the noise stage. -/
def idxAfterNoise (p : Params) (env : Env) (s : RS) : ℕ :=
  idxAfterWarp p env s +
    (if env.noiseFails = true then resolveWidth p * p.height else 0)

/-- `line_w = max(1, int(max(1, grid_spacing*0.06) * (0.3 + grid_strength)))`
(line 163). -/
def gridLineWidth (spacing : ℕ) (g : ℚ) : ℕ :=
  max 1 (pyIntN (max 1 ((spacing : ℚ) * (3/50)) * ((3/10) + g)))

/-- `line_opacity = int(48 + 160 * grid_strength)` (line 164). -/
def gridLineOpacity (g : ℚ) : ℕ := pyIntN (48 + 160 * g)

/-- Python `range(0, limit, spacing)` for positive `spacing`. -/
def gridTicks (limit spacing : ℕ) : List ℕ :=
  List.range' 0 ((limit + spacing - 1) / spacing) spacing

/-- The grid overlay (lines 161-168): vertical bands then horizontal
bands, drawn as inclusive rectangles of half-width `line_w` at every
tick, at intensity `line_opacity`, on a zero-initialised L-mode image. -/
def gridImageOf (p : Params) : GrayImage :=
  let w := resolveWidth p
  let h := p.height
  let lw := (gridLineWidth p.grid_spacing (gridStrengthR p) : ℤ)
  let op := gridLineOpacity (gridStrengthR p)
  let vert := (gridTicks w p.grid_spacing).foldl
    (fun im gx => fillRect im ((gx : ℤ) - lw) 0 ((gx : ℤ) + lw) (h : ℤ) op)
    (constGray w h 0)
  (gridTicks h p.grid_spacing).foldl
    (fun im gy => fillRect im 0 ((gy : ℤ) - lw) (w : ℤ) ((gy : ℤ) + lw) op)
    vert

/-- `noise_scaled = noise_img.point(lambda p: int(p * noise * 0.85))`
(line 172). -/
def noiseScaledOf (p : Params) (env : Env) (s : RS) : GrayImage :=
  pointL (fun v => pyInt ((v : ℚ) * noiseR p * (17/20))) (noiseImageOf p env s)

/-- `reduction = ImageChops.add(noise_scaled, grid)` (line 173). -/
def reductionOf (p : Params) (env : Env) (s : RS) : GrayImage :=
  chopsAdd (noiseScaledOf p env s) (gridImageOf p)

/-- `base_sub = int(10 + 140*(0.2*noise + 0.8*grid_strength))` (line 176). -/
def base_sub (n g : ℚ) : ℤ := pyInt (10 + 140 * ((1/5) * n + (4/5) * g))

/-- `alpha_map = reduction.point(lambda p: int(min(255, base_sub + p*0.6)))`
(line 177). -/
def alphaMapOf (p : Params) (env : Env) (s : RS) : GrayImage :=
  pointL (fun v => pyInt (min 255
    ((base_sub (noiseR p) (gridStrengthR p) : ℚ) + (v : ℚ) * (3/5))))
    (reductionOf p env s)

/-- `alpha = ImageChops.subtract(Image.new("L",(w,h),255), alpha_map)`
(lines 180-181). -/
def alphaSubOf (p : Params) (env : Env) (s : RS) : GrayImage :=
  chopsSubtract (constGray (resolveWidth p) p.height 255) (alphaMapOf p env s)

/-- `forced = text_mask.point(lambda p: 230 if p > 16 else 0)` (line 187). -/
def forcedOf (p : Params) (env : Env) (s : RS) : GrayImage :=
  pointL (fun v => if 16 < v then (230 : ℤ) else 0) (textMaskOf p env s)

/-- The protect-text step (lines 184-188): where the mask is set, take
the per-pixel maximum with the forced value. -/
def alphaProtectedOf (p : Params) (env : Env) (s : RS) : GrayImage :=
  if p.protect_text = true then chopsLighter (alphaSubOf p env s) (forcedOf p env s)
  else alphaSubOf p env s

/-- `min_alpha = max(100, min(255, int(150 - 60*(noise*0.8 + grid_strength*0.2))))`
(lines 191-192). -/
def min_alpha (n g : ℚ) : ℕ :=
  max 100 (min 255 (pyIntN (150 - 60 * (n * (4/5) + g * (1/5)))))

/-- `alpha = alpha.point(lambda p: max(min_alpha, p))` (line 193). -/
def alphaFinalOf (p : Params) (env : Env) (s : RS) : GrayImage :=
  pointL (fun v => ((max (min_alpha (noiseR p) (gridStrengthR p)) v : ℕ) : ℤ))
    (alphaProtectedOf p env s)

/-- `line_count = int(2 + 12 * noise)` (line 202). -/
def line_count (n : ℚ) : ℕ := pyIntN (2 + 12 * n)

/-- `dot_count = int(w*h*0.0006 * (1 + noise*2))` (line 207). -/
def dot_count (w h : ℕ) (n : ℚ) : ℕ :=
  pyIntN ((w : ℚ) * (h : ℚ) * (3/5000) * (1 + n * 2))

/-- Overlay line alpha `int(20 + 140 * noise)` (line 206). -/
def lineFillAlpha (n : ℚ) : ℕ := pyIntN (20 + 140 * n)

/-- Overlay dot alpha `int(10 + 140 * noise)` (line 210). -/
def dotFillAlpha (n : ℚ) : ℕ := pyIntN (10 + 140 * n)

/-- The overlay layer (lines 200-210): black ink with environment-given
rasterised alpha content, on a transparent RGBA layer of the full size. -/
def overlayImgOf (p : Params) (env : Env) : Img :=
  ⟨resolveWidth p, p.height, fun x y => ⟨0, 0, 0, min 255 (env.overlayAlpha x y)⟩⟩

/-- Stream draws consumed by the overlay stage: five per line (two
endpoints and a stroke width), two per dot. -/
def idxAfterOverlay (p : Params) (env : Env) (s : RS) : ℕ :=
  idxAfterNoise p env s + 5 * line_count (noiseR p)
    + 2 * dot_count (resolveWidth p) p.height (noiseR p)

/-- `out = Image.merge("RGBA", (r,g,b,alpha))` (lines 196-197). -/
def outMergedOf (p : Params) (env : Env) (s : RS) : Img :=
  mergeRGBA (blurredOf p env s) (alphaFinalOf p env s)

/-- `out = Image.alpha_composite(out, overlay)` (line 211). -/
def outCompositedOf (p : Params) (env : Env) (s : RS) : Img :=
  alphaCompositeImg (outMergedOf p env s) (overlayImgOf p env)

/-- The finisher contrast map (line 214):
`min(255, int((p-16)*1.06 + 6))`, negatives clamped to 0 by byte
storage. -/
def finisher (c : ℕ) : ℕ := min 255 (pyInt (((c : ℚ) - 16) * (53/50) + 6)).toNat

/-- The full pipeline (lines 35-217): the returned RGBA image.  The
finisher transforms the colour bands and passes the alpha band of the
composited image through unchanged (line 215). -/
def captchaRun (p : Params) (env : Env) (s : RS) : Img :=
  ⟨resolveWidth p, p.height, fun x y =>
    ⟨finisher ((outCompositedOf p env s).pix x y).r,
     finisher ((outCompositedOf p env s).pix x y).g,
     finisher ((outCompositedOf p env s).pix x y).b,
     ((outCompositedOf p env s).pix x y).a⟩⟩

/-- The call as a fallible operation.  The source body of `captcha`
contains no validation and no raise statement, so the result is always
`some` image; `none` would model a `ValidationError` escaping the call. -/
def captchaOut (p : Params) (env : Env) (s : RS) : Option Img :=
  some (captchaRun p env s)

/-- Python `str` on an integer: decimal digits, with a leading minus
sign for negative values. -/
def intStr (n : ℤ) : String :=
  if n < 0 then "-" ++ Nat.repr n.natAbs else Nat.repr n.natAbs

/-- `text = ''.join(map(str, data.numbers))` (src/web_api.py line 25). -/
def webText (numbers : List ℤ) : String := String.join (numbers.map intStr)

/-- The reading of the specification text: concatenation of the decimal
digits of the integers (no sign characters). -/
def decimalDigitsConcat (numbers : List ℤ) : String :=
  String.join (numbers.map fun n => Nat.repr n.natAbs)

/-- The parameter set the transport wrapper passes to the core
(src/web_api.py lines 26-36): the documented defaults with the built
text; `width`, `font_path` and `protect_text` keep their defaults. -/
def webDefaults (text : String) : Params :=
  { text := text.toList, width := none, height := 50, font_path := none,
    font_size := 30, mesh_steps := (1, 11), grid_spacing := 16,
    distortion := 0, noise := 1, grid_strength := 0, rotation := 1,
    protect_text := true }

/-- Result of the transport endpoint: either the structured error
payload or the success payload carrying the parameters the core was
invoked with and the produced image. -/
inductive WebResult where
  | errorPayload : String → WebResult
  | ok : String → Params → Img → WebResult

/-- The transport wrapper `generate_captcha` (src/web_api.py lines
21-40): exactly-5 check, then the core call with the defaults. -/
def generate_captcha (numbers : List ℤ) (env : Env) (s : RS) : WebResult :=
  if numbers.length ≠ 5 then
    WebResult.errorPayload "Must provide exactly 5 numbers"
  else
    WebResult.ok "dummy-token" (webDefaults (webText numbers))
      (captchaRun (webDefaults (webText numbers)) env s)

/-- The parameters of the core invocation recorded in a `WebResult`,
when the core was invoked at all. -/
def webCallParams : WebResult → Option Params
  | WebResult.ok _ ps _ => some ps
  | WebResult.errorPayload _ => none

/-- Cursor position of the `t`-th pasted character, per the
specification text: start at `x0`, advance by
`floor(font_size*0.68) + jitter` per pasted character, the jitter of the
`t`-th paste being the draw at stream position `i0 + 2t + 1`. -/
def specPosFrom (fs : ℕ) (s : RS) (x0 : ℤ) (i0 : ℕ) : ℕ → ℤ
  | 0 => x0
  | t + 1 => specPosFrom fs s x0 i0 t + advance fs + randint5 (s (i0 + 2 * t + 1))

/-- Rotation angle sampled for the `t`-th character. -/
def specAngleFrom (rot : ℚ) (s : RS) (i0 t : ℕ) : ℚ :=
  uniform (-(12 * rot)) (12 * rot) (s (i0 + 2 * t))

/-- The fit condition of the specification text for the `t`-th
character: cursor plus rotated-canvas width fits before `width - 20`. -/
def specFitsFrom (env : Env) (rot : ℚ) (w fs : ℕ) (s : RS)
    (k0 : ℕ) (x0 : ℤ) (i0 : ℕ) (t : ℕ) : Prop :=
  specPosFrom fs s x0 i0 t
    + (env.rotWidth (k0 + t) (specAngleFrom rot s i0 t) : ℤ) ≤ (w : ℤ) - 20

/-- A trivial environment for concrete evaluations: constant rotated
canvases of size 40 x 50, fully opaque glyph ink, no primitive failures,
white external content, zero noise field, zero overlay. -/
def env0 : Env :=
  { rotWidth := fun _ _ => 40, rotHeight := fun _ _ => 50,
    glyphAlpha := fun _ _ _ _ => 255, hasMesh := true, meshFails := false,
    warpPix := fun _ _ => ⟨255, 255, 255, 255⟩,
    rotatePix := fun _ _ _ => ⟨255, 255, 255, 255⟩,
    blurPix := fun _ _ _ => ⟨255, 255, 255, 255⟩,
    noiseFails := false, noiseField := fun _ _ _ => 0,
    overlayAlpha := fun _ _ => 0 }

/-- `env0` with a constant noise field of the given intensity. -/
def envNoise (v : ℕ) : Env := { env0 with noiseField := fun _ _ _ => v }

/-- The all-zero draw stream. -/
def s0 : RS := fun _ => 0

/-- The defaults of the source with empty text. -/
def p0 : Params :=
  { text := [], width := none, height := 50, font_path := none,
    font_size := 30, mesh_steps := (1, 11), grid_spacing := 16,
    distortion := 0, noise := 1, grid_strength := 0, rotation := 1,
    protect_text := true }

/-- A one-character parameter set with explicit width. -/
def p1 : Params := { p0 with text := ['5'], width := some 220 }

/-- A 1 x 1 canvas with explicit width, no glyphs, protection off. -/
def pTiny : Params :=
  { text := [], width := some 1, height := 1, font_path := none,
    font_size := 30, mesh_steps := (1, 11), grid_spacing := 16,
    distortion := 0, noise := 1, grid_strength := 0, rotation := 0,
    protect_text := false }

/-- A 3 x 3 canvas with noise one tenth, no glyphs, protection off. -/
def pC6 : Params :=
  { text := [], width := some 3, height := 3, font_path := none,
    font_size := 30, mesh_steps := (1, 11), grid_spacing := 16,
    distortion := 0, noise := 1/10, grid_strength := 0, rotation := 0,
    protect_text := false }

theorem ratFloor_eq_intFloor (q : ℚ) : Rat.floor q = Int.floor q := by
  rw [Rat.floor_def']
  exact (Rat.floor_def).symm

theorem pyInt_of_nonneg {q : ℚ} (h : 0 ≤ q) : pyInt q = Int.floor q := by
  rw [pyInt, if_neg (not_lt.mpr h), ratFloor_eq_intFloor]

theorem pyInt_nonneg {q : ℚ} (h : 0 ≤ q) : 0 ≤ pyInt q := by
  rw [pyInt_of_nonneg h]
  exact Int.floor_nonneg.mpr h

theorem pyInt_mono {a b : ℚ} (ha : 0 ≤ a) (hab : a ≤ b) : pyInt a ≤ pyInt b := by
  rw [pyInt_of_nonneg ha, pyInt_of_nonneg (ha.trans hab)]
  exact Int.floor_le_floor hab

theorem pyIntN_mono {a b : ℚ} (ha : 0 ≤ a) (hab : a ≤ b) : pyIntN a ≤ pyIntN b :=
  Int.toNat_le_toNat (pyInt_mono ha hab)

theorem pyInt_eval {q : ℚ} {z : ℤ} (h0 : 0 ≤ q) (h1 : (z : ℚ) ≤ q)
    (h2 : q < (z : ℚ) + 1) : pyInt q = z := by
  rw [pyInt_of_nonneg h0]
  refine Int.floor_eq_iff.mpr ⟨h1, ?_⟩
  exact_mod_cast h2

theorem pyIntN_eval {q : ℚ} {n : ℕ} (h1 : (n : ℚ) ≤ q)
    (h2 : q < (n : ℚ) + 1) : pyIntN q = n := by
  have h0 : 0 ≤ q := le_trans (by positivity) h1
  rw [pyIntN, pyInt_eval h0 (by exact_mod_cast h1) (by exact_mod_cast h2)]
  exact Int.toNat_natCast n

theorem pyIntN_le {q : ℚ} {m : ℕ} (h : q ≤ (m : ℚ)) : pyIntN q ≤ m := by
  rcases lt_or_le q 0 with hq | hq
  · rw [pyIntN, pyInt, if_pos hq]
    refine Int.toNat_le.mpr ?_
    have hf : 0 ≤ Rat.floor (-q) := by
      rw [ratFloor_eq_intFloor]
      exact Int.floor_nonneg.mpr (by linarith)
    omega
  · rw [pyIntN]
    refine Int.toNat_le.mpr ?_
    rw [pyInt_of_nonneg hq]
    calc Int.floor q ≤ Int.floor ((m : ℚ)) := Int.floor_le_floor h
    _ = (m : ℤ) := Int.floor_natCast m

theorem compositeAlpha_ge {fg bg : ℕ} (hb : bg ≤ 255) :
    bg ≤ compositeAlpha fg bg := by
  unfold compositeAlpha
  rcases le_or_lt bg fg with h | h
  · exact le_trans h (Nat.le_add_right _ _)
  · have key : (bg - fg) * 255 ≤ bg * (255 - fg) := by
      have h255 : fg ≤ 255 := le_trans h.le hb
      zify [h.le, h255]
      nlinarith [mul_le_mul_of_nonneg_right
        (show (bg : ℤ) ≤ 255 by exact_mod_cast hb) (Int.natCast_nonneg fg)]
    have hdiv : bg - fg ≤ bg * (255 - fg) / 255 :=
      (Nat.le_div_iff_mul_le (by norm_num)).mpr key
    omega

theorem min_alpha_le_255 (n g : ℚ) : min_alpha n g ≤ 255 := by
  rw [min_alpha]
  exact max_le (by norm_num) (min_le_left _ _)

theorem captchaRun_alpha (p : Params) (env : Env) (s : RS) (x y : ℕ) :
    ((captchaRun p env s).pix x y).a =
      compositeAlpha (min 255 (env.overlayAlpha x y))
        ((alphaFinalOf p env s).pix x y) := rfl

theorem alphaFinalOf_pix (p : Params) (env : Env) (s : RS) (x y : ℕ) :
    (alphaFinalOf p env s).pix x y =
      min 255 (max (min_alpha (noiseR p) (gridStrengthR p))
        ((alphaProtectedOf p env s).pix x y)) := by
  simp [alphaFinalOf, pointL, ← Nat.cast_max]

theorem alphaFinalOf_le (p : Params) (env : Env) (s : RS) (x y : ℕ) :
    (alphaFinalOf p env s).pix x y ≤ 255 := by
  rw [alphaFinalOf_pix]
  exact min_le_left _ _

theorem min_alpha_le_alphaFinal (p : Params) (env : Env) (s : RS) (x y : ℕ) :
    min_alpha (noiseR p) (gridStrengthR p) ≤ (alphaFinalOf p env s).pix x y := by
  rw [alphaFinalOf_pix]
  exact le_min (min_alpha_le_255 _ _) (le_max_left _ _)

theorem alphaProtectedOf_ge (p : Params) (env : Env) (s : RS) (x y : ℕ)
    (hp : p.protect_text = true) (hm : 16 < (textMaskOf p env s).pix x y) :
    230 ≤ (alphaProtectedOf p env s).pix x y := by
  rw [alphaProtectedOf, if_pos hp]
  have hforced : (forcedOf p env s).pix x y = 230 := by
    simp [forcedOf, pointL, if_pos hm]
  calc (230 : ℕ) = (forcedOf p env s).pix x y := hforced.symm
  _ ≤ _ := le_max_right _ _

theorem alphaSub_pix (p : Params) (env : Env) (s : RS) (x y : ℕ) :
    (alphaSubOf p env s).pix x y =
      255 - pyIntN (min 255 ((base_sub (noiseR p) (gridStrengthR p) : ℚ) +
        ((min 255 (min 255 (pyIntN (((noiseImageOf p env s).pix x y : ℕ) * noiseR p * (17/20)))
          + (gridImageOf p).pix x y) : ℕ) : ℚ) * (3/5))) := by
  have houter : pyIntN (min 255 ((base_sub (noiseR p) (gridStrengthR p) : ℚ) +
      ((min 255 (min 255 (pyIntN (((noiseImageOf p env s).pix x y : ℕ) * noiseR p * (17/20)))
        + (gridImageOf p).pix x y) : ℕ) : ℚ) * (3/5))) ≤ 255 :=
    pyIntN_le (by exact min_le_left _ _)
  simp only [alphaSubOf, chopsSubtract, constGray, alphaMapOf, pointL, reductionOf,
    chopsAdd, noiseScaledOf, pyIntN]
  rw [Nat.min_eq_right]
  exact houter

theorem buildMeshCells_idx (s : RS) (cw ch mx my : ℚ) :
    ∀ (l : List (ℕ × ℕ)) (i : ℕ),
      (buildMeshCells s cw ch mx my l i).2 = i + 8 * l.length := by
  intro l
  induction l with
  | nil => intro i; simp [buildMeshCells]
  | cons hd tl ih =>
    intro i
    simp only [buildMeshCells, ih, List.length_cons]
    omega

theorem cellPairs_length (nx ny : ℕ) : (cellPairs nx ny).length = nx * ny := by
  have aux : ∀ l : List ℕ,
      (l.foldr (fun i acc => ((List.range ny).map fun j => (i, j)) ++ acc) []).length
        = l.length * ny := by
    intro l
    induction l with
    | nil => simp
    | cons hd tl ih =>
      simp only [List.foldr_cons, List.length_append, List.length_map,
        List.length_range, ih, List.length_cons]
      ring
  rw [cellPairs, aux, List.length_range]

theorem clamp01_eq_clampSpec (v : ℚ) : clamp01 v = clampSpec v := by
  rw [clamp01, clampSpec]
  split_ifs with h1 h2
  · rw [min_eq_right (le_trans h1.le zero_le_one), max_eq_left h1.le]
  · rw [min_eq_left h2.le, max_eq_right zero_le_one]
  · rw [min_eq_right (not_lt.mp h2), max_eq_right (not_lt.mp h1)]

theorem resolveWidth_empty (p : Params) (ht : p.text = []) (hw : p.width = none) :
    resolveWidth p = 220 := by
  rw [resolveWidth, hw, ht]
  have h0 : pyIntN (((([] : List Char).length : ℕ) : ℚ) * (p.font_size : ℚ) * (3/5)) = 0 := by
    have hz : ((([] : List Char).length : ℕ) : ℚ) * (p.font_size : ℚ) * (3/5) = 0 := by
      simp
    rw [hz]
    exact pyIntN_eval (by norm_num) (by norm_num)
  rw [h0]
  decide

/-- Claim C1 (corrected).  The claim asserts that empty text or
non-positive sizes raise a `ValidationError` before any buffer is
allocated; the source performs no validation at all.  Amended statement:
for empty text (and absent width) the call returns normally, producing a
220-wide image of the given height, and no error escapes. -/
theorem C1_no_validation : ∀ (p : Params) (env : Env) (s : RS),
    p.text = [] → p.width = none →
    (captchaOut p env s).isSome = true ∧
    (captchaRun p env s).w = 220 ∧
    (captchaRun p env s).h = p.height := by
  intro p env s ht hw
  exact ⟨rfl, resolveWidth_empty p ht hw, rfl⟩

/-- Witness for C1: the amended statement at the concrete defaults with
empty text. -/
theorem C1_no_validation_witness :
    p0.text = [] ∧ p0.width = none ∧
    (captchaOut p0 env0 s0).isSome = true ∧
    (captchaRun p0 env0 s0).w = 220 ∧
    (captchaRun p0 env0 s0).h = p0.height := by
  refine ⟨rfl, rfl, ?_, ?_, ?_⟩
  · exact (C1_no_validation p0 env0 s0 rfl rfl).1
  · exact (C1_no_validation p0 env0 s0 rfl rfl).2.1
  · exact (C1_no_validation p0 env0 s0 rfl rfl).2.2

/-- Counterexample for C1 as stated: with empty text the source raises
nothing and an image is produced (a 220 x 50 buffer), contradicting
`ValidationError ... and no image is produced`. -/
theorem C1_counterexample :
    p0.text = [] ∧ captchaOut p0 env0 s0 ≠ none ∧
    (captchaRun p0 env0 s0).w = 220 ∧ (captchaRun p0 env0 s0).h = 50 := by
  refine ⟨rfl, ?_, resolveWidth_empty p0 rfl rfl, rfl⟩
  rw [captchaOut]
  exact Option.some_ne_none _

/-- Claim C2 (confirmed).  With `protect_text` on, every pixel whose
pre-warp text-ink mask value exceeds 16 has alpha at least 230 in the
returned image: the forced floor of 230 survives the global minimum
step, the overlay compositing and the finisher. -/
theorem C2_protect_floor : ∀ (p : Params) (env : Env) (s : RS) (x y : ℕ),
    p.protect_text = true → 16 < (textMaskOf p env s).pix x y →
    230 ≤ ((captchaRun p env s).pix x y).a := by
  intro p env s x y hp hm
  rw [captchaRun_alpha]
  have h1 : 230 ≤ (alphaProtectedOf p env s).pix x y :=
    alphaProtectedOf_ge p env s x y hp hm
  have h2 : 230 ≤ (alphaFinalOf p env s).pix x y := by
    rw [alphaFinalOf_pix]
    exact le_min (by norm_num) (le_trans h1 (le_max_right _ _))
  exact le_trans h2 (compositeAlpha_ge (alphaFinalOf_le p env s x y))

/-- Witness for C2: a concrete one-character call in which the mask at
pixel (25,3) is fully opaque. -/
theorem C2_protect_floor_witness :
    p1.protect_text = true ∧ 16 < (textMaskOf p1 env0 s0).pix 25 3 ∧
    230 ≤ ((captchaRun p1 env0 s0).pix 25 3).a :=
  ⟨rfl, by decide, C2_protect_floor p1 env0 s0 25 3 rfl (by decide)⟩

/-- Claim C3 (confirmed).  Every pixel of the returned image has alpha
at least `min_alpha`, the clamped floor computed from the clamped noise
and grid-strength values; the floor survives overlay compositing and the
finisher. -/
theorem C3_min_alpha_floor : ∀ (p : Params) (env : Env) (s : RS) (x y : ℕ),
    min_alpha (clamp01 p.noise) (clamp01 p.grid_strength) ≤
      ((captchaRun p env s).pix x y).a := by
  intro p env s x y
  rw [captchaRun_alpha]
  exact le_trans (min_alpha_le_alphaFinal p env s x y)
    (compositeAlpha_ge (alphaFinalOf_le p env s x y))

/-- Claim C4 (confirmed).  The effective values of the four continuous
knobs, as used by every later stage (each stage reads only `distortionR`,
`noiseR`, `gridStrengthR`, `rotationR`), equal `clamp(v, 0, 1)` for all
inputs, in particular for inputs outside [0,1]. -/
theorem C4_clamped_knobs : ∀ p : Params,
    distortionR p = clampSpec p.distortion ∧
    noiseR p = clampSpec p.noise ∧
    gridStrengthR p = clampSpec p.grid_strength ∧
    rotationR p = clampSpec p.rotation := by
  intro p
  exact ⟨clamp01_eq_clampSpec _, clamp01_eq_clampSpec _,
    clamp01_eq_clampSpec _, clamp01_eq_clampSpec _⟩

/-- Claim C5 (confirmed).  The returned image has exactly the resolved
dimensions: the given height, and the given width or, when absent,
`max(220, floor(len(text)*font_size*0.6) + 60)`; every intermediate
stage (composite, warp or rotation fallback, blur, overlay composite)
keeps the buffer at that size. -/
theorem C5_dimensions : ∀ (p : Params) (env : Env) (s : RS),
    (captchaRun p env s).w = resolveWidth p ∧
    (captchaRun p env s).h = p.height ∧
    (∀ wgiven, p.width = some wgiven → resolveWidth p = wgiven) ∧
    (p.width = none → resolveWidth p
      = max 220 (pyIntN ((p.text.length : ℚ) * (p.font_size : ℚ) * (3/5)) + 60)) ∧
    (composedOf p env s).w = resolveWidth p ∧ (composedOf p env s).h = p.height ∧
    (warpedOf p env s).w = resolveWidth p ∧ (warpedOf p env s).h = p.height ∧
    (blurredOf p env s).w = resolveWidth p ∧ (blurredOf p env s).h = p.height ∧
    (outCompositedOf p env s).w = resolveWidth p ∧
    (outCompositedOf p env s).h = p.height := by
  intro p env s
  have hww : (warpedOf p env s).w = resolveWidth p := by
    rw [warpedOf]
    split
    · split <;> rfl
    · rfl
  have hwh : (warpedOf p env s).h = p.height := by
    rw [warpedOf]
    split
    · split <;> rfl
    · rfl
  refine ⟨rfl, rfl, ?_, ?_, rfl, rfl, hww, hwh, hww, hwh, hww, hwh⟩
  · intro wg hw
    rw [resolveWidth, hw]
  · intro hw
    rw [resolveWidth, hw]

/-- Witness for C5: the width-given case at a concrete call. -/
theorem C5_dimensions_witness :
    p1.width = some 220 ∧ resolveWidth p1 = 220 ∧
    (captchaRun p1 env0 s0).w = resolveWidth p1 :=
  ⟨rfl, (C5_dimensions p1 env0 s0).2.2.1 220 rfl, (C5_dimensions p1 env0 s0).1⟩

/-- Claim C7 (confirmed).  With everything else fixed, increasing noise
within [0,1] never decreases the noise amplitude, the overlay line
count, the dot count, or the line and dot alphas (each an `int(...)`
truncation of an affine nondecreasing function of noise). -/
theorem C7_noise_monotone : ∀ (w h : ℕ) (n1 n2 : ℚ),
    0 ≤ n1 → n1 ≤ n2 → n2 ≤ 1 →
    noise_amp n1 ≤ noise_amp n2 ∧
    line_count n1 ≤ line_count n2 ∧
    dot_count w h n1 ≤ dot_count w h n2 ∧
    lineFillAlpha n1 ≤ lineFillAlpha n2 ∧
    dotFillAlpha n1 ≤ dotFillAlpha n2 := by
  intro w h n1 n2 h0 h12 _
  have hc : (0 : ℚ) ≤ (w : ℚ) * (h : ℚ) * (3/5000) := by positivity
  refine ⟨pyIntN_mono (by linarith) (by linarith),
    pyIntN_mono (by linarith) (by linarith),
    pyIntN_mono (mul_nonneg hc (by linarith)) ?_,
    pyIntN_mono (by linarith) (by linarith),
    pyIntN_mono (by linarith) (by linarith)⟩
  exact mul_le_mul_of_nonneg_left (by linarith) hc

/-- Witness for C7 at noise values 0 and one half on a 220 x 50 canvas. -/
theorem C7_noise_monotone_witness :
    ((0 : ℚ) ≤ 0 ∧ (0 : ℚ) ≤ 1/2 ∧ (1/2 : ℚ) ≤ 1) ∧
    (noise_amp 0 ≤ noise_amp (1/2) ∧
     line_count 0 ≤ line_count (1/2) ∧
     dot_count 220 50 0 ≤ dot_count 220 50 (1/2) ∧
     lineFillAlpha 0 ≤ lineFillAlpha (1/2) ∧
     dotFillAlpha 0 ≤ dotFillAlpha (1/2)) :=
  ⟨⟨le_refl 0, by norm_num, by norm_num⟩,
    C7_noise_monotone 220 50 0 (1/2) (by norm_num) (by norm_num) (by norm_num)⟩

/-- Claim C9 (corrected).  The wrapper invokes the core exactly when the
list has 5 elements, returning the structured error payload otherwise
without invoking the core; on 5 elements the core is called with the
documented defaults and the concatenation of the Python string
representations of the integers (for negative integers this includes a
minus sign, which is the correction to the claim wording). -/
theorem C9_wrapper : ∀ (numbers : List ℤ) (env : Env) (s : RS),
    (numbers.length ≠ 5 →
      generate_captcha numbers env s =
        WebResult.errorPayload "Must provide exactly 5 numbers") ∧
    (numbers.length = 5 →
      generate_captcha numbers env s =
        WebResult.ok "dummy-token" (webDefaults (webText numbers))
          (captchaRun (webDefaults (webText numbers)) env s)) ∧
    ((webCallParams (generate_captcha numbers env s)).isSome ↔
      numbers.length = 5) := by
  intro numbers env s
  by_cases h : numbers.length = 5
  · refine ⟨fun hne => absurd h hne, fun _ => ?_, ?_⟩
    · rw [generate_captcha, if_neg (by simp [h])]
    · rw [generate_captcha, if_neg (by simp [h])]
      simp [webCallParams, h]
  · refine ⟨fun _ => ?_, fun he => absurd he h, ?_⟩
    · rw [generate_captcha, if_pos h]
    · rw [generate_captcha, if_pos h]
      simp [webCallParams, h]

/-- Witness for C9 at a concrete five-element request. -/
theorem C9_wrapper_witness :
    ([(1 : ℤ), 2, 3, 4, 5].length = 5) ∧
    generate_captcha [(1 : ℤ), 2, 3, 4, 5] env0 s0 =
      WebResult.ok "dummy-token" (webDefaults (webText [(1 : ℤ), 2, 3, 4, 5]))
        (captchaRun (webDefaults (webText [(1 : ℤ), 2, 3, 4, 5])) env0 s0) :=
  ⟨rfl, (C9_wrapper [(1 : ℤ), 2, 3, 4, 5] env0 s0).2.1 rfl⟩

/-- Counterexample for C9 as stated: for the admissible request
`[-1, 2, 3, 4, 5]` the text passed to the core is `"-12345"`, which is
not the concatenation of the decimal digits `"12345"`. -/
theorem C9_counterexample :
    webText [(-1 : ℤ), 2, 3, 4, 5] = "-12345" ∧
    decimalDigitsConcat [(-1 : ℤ), 2, 3, 4, 5] = "12345" ∧
    webText [(-1 : ℤ), 2, 3, 4, 5] ≠ decimalDigitsConcat [(-1 : ℤ), 2, 3, 4, 5] ∧
    (webCallParams (generate_captcha [(-1 : ℤ), 2, 3, 4, 5] env0 s0)).map Params.text
      = some ("-12345".toList) := by
  exact ⟨by decide, by decide, by decide, rfl⟩

/-- Claim C10 (corrected).  Holding the environment (the external PIL
primitives, in particular the `effect_noise` field drawn from the
PIL-internal generator) fixed, the pipeline is a deterministic function
of the parameters and the random-module stream; and the 8-per-cell mesh
perturbation draws are consumed for every distortion value, including
when the mesh result is discarded. -/
theorem C10_determinism :
    (∀ (p : Params) (env : Env) (s t : RS), s = t →
      captchaRun p env s = captchaRun p env t) ∧
    (∀ (p : Params) (env : Env) (s : RS),
      idxAfterMesh p env s = idxAfterGlyphs p env s + 8 * (meshNx p * meshNy p)) := by
  constructor
  · intro p env s t hst
    rw [hst]
  · intro p env s
    rw [idxAfterMesh, buildMeshCells_idx, cellPairs_length]

/-- Witness for C10 at the concrete defaults. -/
theorem C10_determinism_witness :
    captchaRun p0 env0 s0 = captchaRun p0 env0 s0 ∧
    idxAfterMesh p0 env0 s0 = idxAfterGlyphs p0 env0 s0 + 8 * (meshNx p0 * meshNy p0) :=
  ⟨C10_determinism.1 p0 env0 s0 s0 rfl, C10_determinism.2 p0 env0 s0⟩

theorem noiseR_pTiny : noiseR pTiny = 1 := by
  show clamp01 1 = 1
  rw [clamp01, min_self, max_eq_right zero_le_one]

theorem gridStrengthR_pTiny : gridStrengthR pTiny = 0 := by
  show clamp01 0 = 0
  rw [clamp01, min_eq_right zero_le_one, max_self]

theorem noiseR_pC6 : noiseR pC6 = 1/10 := by
  show clamp01 (1/10) = 1/10
  rw [clamp01, min_eq_right (by norm_num), max_eq_right (by norm_num)]

theorem gridStrengthR_pC6 : gridStrengthR pC6 = 0 := by
  show clamp01 0 = 0
  rw [clamp01, min_eq_right zero_le_one, max_self]

theorem gridLineWidth_16_0 : gridLineWidth 16 0 = 1 := by
  rw [gridLineWidth]
  have h1 : max (1 : ℚ) ((16 : ℕ) * (3/50)) = 1 := max_eq_left (by norm_num)
  rw [h1]
  have h2 : pyIntN ((1 : ℚ) * ((3/10) + 0)) = 0 := by
    have he : (1 : ℚ) * ((3/10) + 0) = 3/10 := by norm_num
    rw [he]
    exact pyIntN_eval (by norm_num) (by norm_num)
  rw [h2]
  decide

theorem gridLineOpacity_0 : gridLineOpacity 0 = 48 := by
  rw [gridLineOpacity]
  exact pyIntN_eval (by norm_num) (by norm_num)

theorem grid_pTiny : (gridImageOf pTiny).pix 0 0 = 48 := by
  have hg : gridStrengthR pTiny = 0 := gridStrengthR_pTiny
  have hsp : pTiny.grid_spacing = 16 := rfl
  have hw : resolveWidth pTiny = 1 := rfl
  have hh : pTiny.height = 1 := rfl
  simp only [gridImageOf, hg, hsp, hw, hh, gridLineWidth_16_0, gridLineOpacity_0]
  decide

theorem grid_pC6 : (gridImageOf pC6).pix 2 2 = 0 := by
  have hg : gridStrengthR pC6 = 0 := gridStrengthR_pC6
  have hsp : pC6.grid_spacing = 16 := rfl
  have hw : resolveWidth pC6 = 3 := rfl
  have hh : pC6.height = 3 := rfl
  simp only [gridImageOf, hg, hsp, hw, hh, gridLineWidth_16_0, gridLineOpacity_0]
  decide

theorem noise_pTiny_0 : (noiseImageOf pTiny (envNoise 0) s0).pix 0 0 = 0 := by
  rw [noiseImageOf]
  simp [envNoise, env0]

theorem noise_pTiny_255 : (noiseImageOf pTiny (envNoise 255) s0).pix 0 0 = 255 := by
  rw [noiseImageOf]
  simp [envNoise, env0]

theorem noise_pC6_0 : (noiseImageOf pC6 (envNoise 0) s0).pix 2 2 = 0 := by
  rw [noiseImageOf]
  simp [envNoise, env0]

theorem alphaSub_eval {p : Params} {env : Env} {s : RS} {x y : ℕ} {nv gv : ℕ} {n g : ℚ}
    (hn : noiseR p = n) (hg : gridStrengthR p = g)
    (hnv : (noiseImageOf p env s).pix x y = nv)
    (hgv : (gridImageOf p).pix x y = gv)
    {ns red am : ℕ}
    (hns : pyIntN ((nv : ℚ) * n * (17/20)) = ns)
    (hred : min 255 (min 255 ns + gv) = red)
    (ham : pyIntN (min 255 ((base_sub n g : ℚ) + (red : ℚ) * (3/5))) = am) :
    (alphaSubOf p env s).pix x y = 255 - am := by
  rw [alphaSub_pix, hn, hg, hnv, hgv, hns, hred, ham]

theorem base_sub_1_0 : base_sub 1 0 = 38 := by
  rw [base_sub]
  exact pyInt_eval (by norm_num) (by norm_num) (by norm_num)

theorem base_sub_tenth_0 : base_sub (1/10) 0 = 12 := by
  rw [base_sub]
  exact pyInt_eval (by norm_num) (by norm_num) (by norm_num)

theorem min_alpha_1_0 : min_alpha 1 0 = 102 := by
  rw [min_alpha]
  have he : (150 : ℚ) - 60 * (1 * (4/5) + 0 * (1/5)) = 102 := by norm_num
  rw [he]
  have h2 : pyIntN (102 : ℚ) = 102 := pyIntN_eval (by norm_num) (by norm_num)
  rw [h2]
  decide

theorem alphaSub_pTiny_0 : (alphaSubOf pTiny (envNoise 0) s0).pix 0 0 = 189 := by
  have hns : pyIntN (((0 : ℕ) : ℚ) * 1 * (17/20)) = 0 := by
    have he : ((0 : ℕ) : ℚ) * 1 * (17/20) = 0 := by norm_num
    rw [he]
    exact pyIntN_eval (by norm_num) (by norm_num)
  have ham : pyIntN (min 255 ((base_sub 1 0 : ℚ) + ((48 : ℕ) : ℚ) * (3/5))) = 66 := by
    rw [base_sub_1_0]
    have he : min (255 : ℚ) (((38 : ℤ) : ℚ) + ((48 : ℕ) : ℚ) * (3/5)) = 334/5 := by
      rw [min_eq_right] <;> push_cast <;> norm_num
    rw [he]
    exact pyIntN_eval (by norm_num) (by norm_num)
  have h := alphaSub_eval noiseR_pTiny gridStrengthR_pTiny noise_pTiny_0 grid_pTiny
    hns (by decide) ham
  rw [h]

theorem alphaSub_pTiny_255 : (alphaSubOf pTiny (envNoise 255) s0).pix 0 0 = 64 := by
  have hns : pyIntN (((255 : ℕ) : ℚ) * 1 * (17/20)) = 216 := by
    have he : ((255 : ℕ) : ℚ) * 1 * (17/20) = 867/4 := by push_cast; norm_num
    rw [he]
    exact pyIntN_eval (by norm_num) (by norm_num)
  have ham : pyIntN (min 255 ((base_sub 1 0 : ℚ) + ((255 : ℕ) : ℚ) * (3/5))) = 191 := by
    rw [base_sub_1_0]
    have he : min (255 : ℚ) (((38 : ℤ) : ℚ) + ((255 : ℕ) : ℚ) * (3/5)) = 191 := by
      rw [min_eq_right] <;> push_cast <;> norm_num
    rw [he]
    exact pyIntN_eval (by norm_num) (by norm_num)
  have h := alphaSub_eval noiseR_pTiny gridStrengthR_pTiny noise_pTiny_255 grid_pTiny
    hns (by decide) ham
  rw [h]

theorem alphaSub_pC6 : (alphaSubOf pC6 (envNoise 0) s0).pix 2 2 = 243 := by
  have hns : pyIntN (((0 : ℕ) : ℚ) * (1/10) * (17/20)) = 0 := by
    have he : ((0 : ℕ) : ℚ) * (1/10) * (17/20) = 0 := by norm_num
    rw [he]
    exact pyIntN_eval (by norm_num) (by norm_num)
  have ham : pyIntN (min 255 ((base_sub (1/10) 0 : ℚ) + ((0 : ℕ) : ℚ) * (3/5))) = 12 := by
    rw [base_sub_tenth_0]
    have he : min (255 : ℚ) (((12 : ℤ) : ℚ) + ((0 : ℕ) : ℚ) * (3/5)) = 12 := by
      rw [min_eq_right] <;> push_cast <;> norm_num
    rw [he]
    exact pyIntN_eval (by norm_num) (by norm_num)
  have h := alphaSub_eval noiseR_pC6 gridStrengthR_pC6 noise_pC6_0 grid_pC6
    hns (by decide) ham
  rw [h]

theorem finalAlpha_pTiny_eval (env : Env) (a2 : ℕ)
    (hsub : (alphaSubOf pTiny env s0).pix 0 0 = a2) :
    ((captchaRun pTiny env s0).pix 0 0).a =
      compositeAlpha (min 255 (env.overlayAlpha 0 0)) (min 255 (max 102 a2)) := by
  rw [captchaRun_alpha, alphaFinalOf_pix, noiseR_pTiny, gridStrengthR_pTiny,
    min_alpha_1_0, alphaProtectedOf, if_neg (show ¬ (pTiny.protect_text = true) by decide),
    hsub]

/-- Claim C6 (corrected).  The per-pixel alpha computed before the
protect-text and global-minimum floors equals
`clamp(255 - alpha_map, 0, 255)` with
`alpha_map = floor(clamp(base_sub + reduction*0.6, 0, 255))`,
`reduction = clamp(noise_scaled + grid, 0, 255)`,
`noise_scaled = floor(noise_pixel * noise * 0.85)` clamped to [0,255],
and `base_sub = floor(10 + 140*(0.2*noise + 0.8*grid_strength))` — the
amendment replaces the round of the claim by the floor (Python `int`)
the source uses. -/
theorem C6_alpha_formula : ∀ (p : Params) (env : Env) (s : RS) (x y : ℕ),
    (alphaSubOf p env s).pix x y =
      255 - pyIntN (min 255 ((base_sub (noiseR p) (gridStrengthR p) : ℚ) +
        ((min 255 (min 255 (pyIntN (((noiseImageOf p env s).pix x y : ℕ) * noiseR p * (17/20)))
          + (gridImageOf p).pix x y) : ℕ) : ℚ) * (3/5))) :=
  fun p env s x y => alphaSub_pix p env s x y

/-- Counterexample for C6 as stated: at noise one tenth the claim takes
`base_sub = round(12.8) = 13` giving pre-floor alpha 242, while the
source computes `int(12.8) = 12` giving 243. -/
theorem C6_counterexample :
    noiseR pC6 = 1/10 ∧
    base_sub (1/10) 0 = 12 ∧
    round ((10 : ℚ) + 140 * ((1/5) * (1/10) + (4/5) * 0)) = 13 ∧
    (alphaSubOf pC6 (envNoise 0) s0).pix 2 2 = 243 ∧
    (255 : ℤ) - round ((10 : ℚ) + 140 * ((1/5) * (1/10) + (4/5) * 0)) = 242 := by
  have hr : round ((10 : ℚ) + 140 * ((1/5) * (1/10) + (4/5) * 0)) = 13 := by
    rw [round_eq]
    have he : (10 : ℚ) + 140 * ((1/5) * (1/10) + (4/5) * 0) + 1/2 = 133/10 := by norm_num
    rw [he]
    refine Int.floor_eq_iff.mpr ⟨by norm_num, by norm_num⟩
  refine ⟨noiseR_pC6, base_sub_tenth_0, hr, alphaSub_pC6, ?_⟩
  rw [hr]
  decide

/-- Counterexample for C10 as stated: two invocations with identical
parameters and identical random-module stream, differing only in the
noise field delivered by the external `effect_noise` primitive (whose
generator is internal to PIL, not the random module), return images
that differ pixel-for-pixel at (0,0). -/
theorem C10_counterexample :
    ((captchaRun pTiny (envNoise 0) s0).pix 0 0).a = 189 ∧
    ((captchaRun pTiny (envNoise 255) s0).pix 0 0).a = 102 ∧
    captchaRun pTiny (envNoise 0) s0 ≠ captchaRun pTiny (envNoise 255) s0 := by
  have h0 : ((captchaRun pTiny (envNoise 0) s0).pix 0 0).a = 189 := by
    rw [finalAlpha_pTiny_eval (envNoise 0) 189 alphaSub_pTiny_0]
    decide
  have h255 : ((captchaRun pTiny (envNoise 255) s0).pix 0 0).a = 102 := by
    rw [finalAlpha_pTiny_eval (envNoise 255) 64 alphaSub_pTiny_255]
    decide
  refine ⟨h0, h255, ?_⟩
  intro heq
  have hpix := congrArg (fun im : Img => (im.pix 0 0).a) heq
  simp only at hpix
  rw [h0, h255] at hpix
  exact absurd hpix (by decide)

theorem randint5_range {u : ℚ} (h0 : 0 ≤ u) (h1 : u < 1) :
    -1 ≤ randint5 u ∧ randint5 u ≤ 3 := by
  rw [randint5]
  have hnn : (0 : ℚ) ≤ u * 5 := by positivity
  rw [pyInt_of_nonneg hnn]
  have hlow : (0 : ℤ) ≤ Int.floor (u * 5) := Int.floor_nonneg.mpr hnn
  have hhigh : Int.floor (u * 5) < 5 := Int.floor_lt.mpr (by push_cast; linarith)
  omega

theorem specPosFrom_shift (fs : ℕ) (s : RS) (x0 : ℤ) (i0 : ℕ) :
    ∀ t, specPosFrom fs s (x0 + advance fs + randint5 (s (i0 + 1))) (i0 + 2) t
      = specPosFrom fs s x0 i0 (t + 1) := by
  intro t
  induction t with
  | zero => simp [specPosFrom]
  | succ t ih =>
    have hidx : i0 + 2 + 2 * t + 1 = i0 + 2 * (t + 1) + 1 := by ring
    simp only [specPosFrom, ih, hidx]

theorem specAngleFrom_shift (rot : ℚ) (s : RS) (i0 t : ℕ) :
    specAngleFrom rot s (i0 + 2) t = specAngleFrom rot s i0 (t + 1) := by
  have hidx : i0 + 2 + 2 * t = i0 + 2 * (t + 1) := by ring
  rw [specAngleFrom, specAngleFrom, hidx]

theorem specFitsFrom_shift (env : Env) (rot : ℚ) (w fs : ℕ) (s : RS)
    (k0 : ℕ) (x0 : ℤ) (i0 t : ℕ) :
    specFitsFrom env rot w fs s (k0 + 1)
        (x0 + advance fs + randint5 (s (i0 + 1))) (i0 + 2) t
      ↔ specFitsFrom env rot w fs s k0 x0 i0 (t + 1) := by
  rw [specFitsFrom, specFitsFrom, specPosFrom_shift, specAngleFrom_shift]
  have hk : k0 + 1 + t = k0 + (t + 1) := by ring
  rw [hk]

theorem glyphPastes_spec (env : Env) (rot : ℚ) (w fs : ℕ) (s : RS) :
    ∀ (chars : List Char) (k0 : ℕ) (x0 : ℤ) (i0 : ℕ),
    ∃ n, n ≤ chars.length ∧
      ((glyphPastes env rot w fs s chars k0 x0 i0).1).map Paste.x
        = (List.range n).map (specPosFrom fs s x0 i0) ∧
      ((glyphPastes env rot w fs s chars k0 x0 i0).1).map Paste.k
        = (List.range n).map (fun t => k0 + t) ∧
      (∀ t, t < n → specFitsFrom env rot w fs s k0 x0 i0 t) ∧
      (n < chars.length → ¬ specFitsFrom env rot w fs s k0 x0 i0 n) ∧
      (glyphPastes env rot w fs s chars k0 x0 i0).2
        = i0 + 2 * n + (if n < chars.length then 1 else 0) := by
  intro chars
  induction chars with
  | nil =>
    intro k0 x0 i0
    refine ⟨0, Nat.le_refl 0, by simp [glyphPastes], by simp [glyphPastes],
      fun t ht => absurd ht (Nat.not_lt_zero t), fun h => absurd h (by simp), ?_⟩
    simp [glyphPastes]
  | cons c rest ih =>
    intro k0 x0 i0
    by_cases hfit : (w : ℤ) - 20 <
        x0 + (env.rotWidth k0 (uniform (-(12 * rot)) (12 * rot) (s i0)) : ℤ)
    · have hglyph : glyphPastes env rot w fs s (c :: rest) k0 x0 i0 = ([], i0 + 1) := by
        simp only [glyphPastes]
        rw [if_pos hfit]
      refine ⟨0, Nat.zero_le _, by simp [hglyph], by simp [hglyph],
        fun t ht => absurd ht (Nat.not_lt_zero t), ?_, by simp [hglyph]⟩
      intro _
      rw [specFitsFrom]
      simp only [specPosFrom, specAngleFrom, Nat.mul_zero, Nat.add_zero]
      exact not_le.mpr hfit
    · have hg1 : (glyphPastes env rot w fs s (c :: rest) k0 x0 i0).1 =
          ⟨k0, x0, uniform (-(12 * rot)) (12 * rot) (s i0)⟩ ::
            (glyphPastes env rot w fs s rest (k0 + 1)
              (x0 + advance fs + randint5 (s (i0 + 1))) (i0 + 2)).1 := by
        simp only [glyphPastes]
        rw [if_neg hfit]
      have hg2 : (glyphPastes env rot w fs s (c :: rest) k0 x0 i0).2 =
          (glyphPastes env rot w fs s rest (k0 + 1)
            (x0 + advance fs + randint5 (s (i0 + 1))) (i0 + 2)).2 := by
        simp only [glyphPastes]
        rw [if_neg hfit]
      obtain ⟨n, hn, hxs, hks, hfits, hstop, hidx⟩ :=
        ih (k0 + 1) (x0 + advance fs + randint5 (s (i0 + 1))) (i0 + 2)
      refine ⟨n + 1, by simpa using Nat.succ_le_succ hn, ?_, ?_, ?_, ?_, ?_⟩
      · rw [hg1, List.map_cons, hxs, List.range_succ_eq_map, List.map_cons,
          List.map_map]
        congr 1
        refine List.map_congr_left ?_
        intro t _
        exact specPosFrom_shift fs s x0 i0 t
      · rw [hg1, List.map_cons, hks, List.range_succ_eq_map, List.map_cons,
          List.map_map]
        congr 1
        refine List.map_congr_left ?_
        intro t _
        show k0 + 1 + t = k0 + Nat.succ t
        omega
      · intro t ht
        cases t with
        | zero =>
          rw [specFitsFrom]
          simp only [specPosFrom, specAngleFrom, Nat.mul_zero, Nat.add_zero]
          exact not_lt.mp hfit
        | succ t2 =>
          have ht2 : t2 < n := by omega
          exact (specFitsFrom_shift env rot w fs s k0 x0 i0 t2).mp (hfits t2 ht2)
      · intro hlt
        rw [List.length_cons] at hlt
        have hlt2 : n < rest.length := by omega
        intro hcontra
        exact hstop hlt2 ((specFitsFrom_shift env rot w fs s k0 x0 i0 n).mpr hcontra)
      · rw [hg2, hidx, List.length_cons]
        by_cases hlt : n < rest.length
        · rw [if_pos hlt, if_pos (by omega : n + 1 < rest.length + 1)]
          omega
        · rw [if_neg hlt, if_neg (by omega : ¬ (n + 1 < rest.length + 1))]
          omega

/-- Claim C8 (confirmed).  The character loop pastes, in order, exactly
the longest prefix of the text for which the running cursor plus the
rotated-canvas width stays within `width - 20`; the first misfit stops
the loop silently; paste positions follow the cursor recurrence
`x(t+1) = x(t) + floor(font_size*0.68) + jitter(t)` from 20, and each
jitter, drawn from the stream, lies in the set from -1 to 3. -/
theorem C8_glyph_loop : ∀ (p : Params) (env : Env) (s : RS),
    (∀ i, 0 ≤ s i ∧ s i < 1) →
    (∀ i, -1 ≤ randint5 (s i) ∧ randint5 (s i) ≤ 3) ∧
    ∃ n, n ≤ p.text.length ∧
      (pastesOf p env s).map Paste.x
        = (List.range n).map (specPosFrom p.font_size s 20 0) ∧
      (pastesOf p env s).map Paste.k = List.range n ∧
      (∀ t, t < n →
        specFitsFrom env (rotationR p) (resolveWidth p) p.font_size s 0 20 0 t) ∧
      (n < p.text.length →
        ¬ specFitsFrom env (rotationR p) (resolveWidth p) p.font_size s 0 20 0 n) ∧
      idxAfterGlyphs p env s = 2 * n + (if n < p.text.length then 1 else 0) := by
  intro p env s hs
  refine ⟨fun i => randint5_range (hs i).1 (hs i).2, ?_⟩
  obtain ⟨n, h1, h2, h3, h4, h5, h6⟩ :=
    glyphPastes_spec env (rotationR p) (resolveWidth p) p.font_size s p.text 0 20 0
  refine ⟨n, h1, h2, ?_, h4, h5, ?_⟩
  · simpa using h3
  · simp only [idxAfterGlyphs]
    simpa using h6

/-- Witness for C8: the all-zero stream with a one-character text. -/
theorem C8_glyph_loop_witness :
    (∀ i, 0 ≤ s0 i ∧ s0 i < 1) ∧
    ((∀ i, -1 ≤ randint5 (s0 i) ∧ randint5 (s0 i) ≤ 3) ∧
     ∃ n, n ≤ p1.text.length ∧
       (pastesOf p1 env0 s0).map Paste.x
         = (List.range n).map (specPosFrom p1.font_size s0 20 0) ∧
       (pastesOf p1 env0 s0).map Paste.k = List.range n ∧
       (∀ t, t < n →
         specFitsFrom env0 (rotationR p1) (resolveWidth p1) p1.font_size s0 0 20 0 t) ∧
       (n < p1.text.length →
         ¬ specFitsFrom env0 (rotationR p1) (resolveWidth p1) p1.font_size s0 0 20 0 n) ∧
       idxAfterGlyphs p1 env0 s0 = 2 * n + (if n < p1.text.length then 1 else 0)) := by
  have hs : ∀ i, 0 ≤ s0 i ∧ s0 i < 1 := fun i => ⟨le_refl 0, by norm_num [s0]⟩
  exact ⟨hs, C8_glyph_loop p1 env0 s0 hs⟩
